import Mathlib

/-!
Verification development for the github-retrospective-2025 repository.

The definitions below are a shallow embedding of the TypeScript source:
  * `src/lib/types/github-user.ts`  — the data model,
  * `src/lib/services/github.ts`    — the metrics aggregator and existence probe,
  * `src/app/actions/user.ts`       — the user store, cache policy and lookup
    orchestrator (the latest of the three revisions contained in that file).

Modelling conventions:
  * timestamps (`Date`, `getTime()`) are `Int` epoch milliseconds;
  * JavaScript numbers holding counts are `Nat`, percentages and averages are `ℚ`;
  * a thrown JS `Error` is an `Except String` value carrying `error.message`;
  * JS string operations (`trim`, `toLowerCase`, `includes`, `split`) are
    re-implemented structurally over `String.data` (ASCII-faithful);
  * the MongoDB collection is a `List GitHubUser` in insertion order;
    `findOne`/`updateOne` act on the first matching element;
  * `Array.prototype.sort` (stable since ES2019) is modelled by a stable
    insertion sort;
  * the JSON runtime distinction "field absent / undefined" for
    `metrics.contributionCalendar` is modelled with `Option`, because
    `isDataFresh` tests `!== undefined` and the `coding-streak` component
    guards with `?? []`.
-/

namespace Retro

/-! ## JS string primitives -/

/-- Drop leading whitespace characters, as `String.prototype.trim` does on
each end of a string. -/
def dropLeadWs : List Char → List Char
  | [] => []
  | c :: cs => if c.isWhitespace then dropLeadWs cs else c :: cs

/-- Model of `String.prototype.trim`: remove whitespace at both ends. -/
def jsTrim (s : String) : String :=
  ⟨(dropLeadWs (dropLeadWs s.data).reverse).reverse⟩

/-- Model of `String.prototype.toLowerCase` (ASCII range). -/
def jsToLower (s : String) : String :=
  ⟨s.data.map Char.toLower⟩

/-- Does the pattern occur at the front of the list? -/
def subAt : List Char → List Char → Bool
  | [], _ => true
  | _ :: _, [] => false
  | a :: as, b :: bs => a == b && subAt as bs

/-- Does the pattern occur anywhere in the list? -/
def hasSub (pat : List Char) : List Char → Bool
  | [] => subAt pat []
  | c :: cs => subAt pat (c :: cs) || hasSub pat cs

/-- Model of `String.prototype.includes(pat)`. -/
def strIncludes (s pat : String) : Bool :=
  hasSub pat.data s.data

/-- Model of `message.split("\n")[0]`: the text before the first newline. -/
def firstLine (s : String) : String :=
  ⟨s.data.takeWhile (fun c => c ≠ '\n')⟩

/-- Model of JS `Math.round` on an exact rational: round half away from
zero is `⌊q + 1/2⌋` for the non-negative values arising here. -/
def jsRound (q : ℚ) : Int :=
  ⌊q + 1/2⌋

/-- Stable insertion of an element into a sorted list (used to model the
stable `Array.prototype.sort`). -/
def insertBy {α : Type} (le : α → α → Bool) (a : α) : List α → List α
  | [] => [a]
  | b :: bs => if le a b then a :: b :: bs else b :: insertBy le a bs

/-- Stable sort by a boolean comparison, modelling `Array.prototype.sort`
with a consistent comparator. -/
def sortBy {α : Type} (le : α → α → Bool) : List α → List α
  | [] => []
  | a :: as => insertBy le a (sortBy le as)

/-! ## Data model (`src/lib/types/github-user.ts`) -/

/-- One day of the contribution calendar. -/
structure ContributionDay where
  date : String
  contributionCount : Nat
deriving DecidableEq

/-- One week of the contribution calendar. -/
structure ContributionWeek where
  contributionDays : List ContributionDay
deriving DecidableEq

/-- A language with its byte-share percentage (one decimal place). -/
structure Language where
  name : String
  percentage : ℚ
deriving DecidableEq

/-- A top repository entry. -/
structure TopRepo where
  name : String
  owner : String
  commits : Nat
  additions : Nat
  deletions : Nat
  url : String
deriving DecidableEq

/-- First/last commit info; `date` is epoch milliseconds. -/
structure CommitInfo where
  date : Int
  repo : String
  message : String
  url : String
deriving DecidableEq

/-- The metrics value object.  `contributionCalendar` is `Option` because
stored documents written by the current `fetchGitHubMetrics` or by an older
schema may lack the field (`isDataFresh` probes for `undefined`). -/
structure GitHubMetrics where
  totalCommits : Nat
  longestStreak : Nat
  contributionCalendar : Option (List ContributionWeek)
  reposCreated : Nat
  reposContributed : Nat
  reposForked : Nat
  languages : List Language
  totalPRs : Nat
  totalIssues : Nat
  codeReviewComments : Nat
  starsReceived : Nat
  topRepos : List TopRepo
  firstCommit : Option CommitInfo
  lastCommit : Option CommitInfo
deriving DecidableEq

/-- A stored user document (`_id` is projected away by every reader and is
not modelled). `fetchedAt` is epoch milliseconds. -/
structure GitHubUser where
  username : String
  fetchedAt : Int
  metrics : GitHubMetrics
deriving DecidableEq

/-! ## User store (`src/app/actions/user.ts`) -/

/-- `getUserByUsername`: lowercase the key, `findOne` by exact match, and
rebuild the plain object `{username, fetchedAt, metrics}`. -/
def getUserByUsername (store : List GitHubUser) (username : String) :
    Option GitHubUser :=
  match store.find? (fun u => u.username == jsToLower username) with
  | none => none
  | some u => some { username := u.username, fetchedAt := u.fetchedAt, metrics := u.metrics }

/-- The store after `updateOne({username}, {$set: ...}, {upsert: true})`:
replace the first matching document, or append when none matches. -/
def upsertStore (key : String) (rec : GitHubUser) : List GitHubUser → List GitHubUser
  | [] => [rec]
  | u :: us => if u.username == key then rec :: us else u :: upsertStore key rec us

/-- `upsertUser`: lowercase the key, replace (not merge) `fetchedAt` and
`metrics`, insert if absent; returns the resulting record and the new store. -/
def upsertUser (store : List GitHubUser) (username : String)
    (metrics : GitHubMetrics) (now : Int) : GitHubUser × List GitHubUser :=
  let normalizedUsername := jsToLower username
  let rec' : GitHubUser := { username := normalizedUsername, fetchedAt := now, metrics := metrics }
  (rec', upsertStore normalizedUsername rec' store)

/-- Cache duration: 3 days in milliseconds. -/
def CACHE_DURATION_MS : Int := 3 * 24 * 60 * 60 * 1000

/-- `isDataFresh` (latest revision): not expired and schema-complete. -/
def isDataFresh (user : GitHubUser) (now : Int) : Bool :=
  let age := now - user.fetchedAt
  let notExpired := decide (age < CACHE_DURATION_MS)
  let hasAllFields := user.metrics.contributionCalendar.isSome
  notExpired && hasAllFields

/-! ## First sample values (shared by several witnesses) -/

/-- A metrics value with every field at its neutral value and a present
(empty) contribution calendar. -/
def emptyMetricsComplete : GitHubMetrics :=
  { totalCommits := 0, longestStreak := 0, contributionCalendar := some []
    reposCreated := 0, reposContributed := 0, reposForked := 0, languages := []
    totalPRs := 0, totalIssues := 0, codeReviewComments := 0, starsReceived := 0
    topRepos := [], firstCommit := none, lastCommit := none }

/-- A stored record for user `alice`, fetched at epoch 0. -/
def aliceRecord : GitHubUser :=
  { username := "alice", fetchedAt := 0, metrics := emptyMetricsComplete }

/-! ## Claim C3 — cache freshness -/

/-- Claim C3: the cache freshness check returns `true` iff the record's age
is strictly below 3 days and `metrics.contributionCalendar` is defined; it
returns `false` for a record older than 3 days even if schema-complete, and
`false` for a record newer than 3 days whose calendar is undefined
(`isDataFresh`, src/app/actions/user.ts lines 271-280). -/
theorem claim_C3_isFresh : ∀ (u : GitHubUser) (now : Int),
    (isDataFresh u now = true ↔
      (now - u.fetchedAt < CACHE_DURATION_MS ∧
        u.metrics.contributionCalendar ≠ none)) ∧
    (CACHE_DURATION_MS < now - u.fetchedAt → isDataFresh u now = false) ∧
    (now - u.fetchedAt < CACHE_DURATION_MS → u.metrics.contributionCalendar = none →
      isDataFresh u now = false) := by
  intro u now
  refine ⟨?_, ?_, ?_⟩
  · simp [isDataFresh, Option.isSome_iff_ne_none]
  · intro h
    simp [isDataFresh]
    intro h'
    omega
  · intro _ h
    simp [isDataFresh, h]

/-- Witness for C3 at a concrete stale record: `aliceRecord` fetched at 0 is
not fresh at `CACHE_DURATION_MS + 1`. -/
theorem claim_C3_isFresh_witness :
    isDataFresh aliceRecord (CACHE_DURATION_MS + 1) = false :=
  (claim_C3_isFresh aliceRecord (CACHE_DURATION_MS + 1)).2.1 (by decide)

/-! ## Claim C7 — upsert/get round trip -/

theorem find?_upsertStore (key : String) (rec : GitHubUser)
    (hkey : rec.username = key) :
    ∀ store : List GitHubUser,
      (upsertStore key rec store).find? (fun u => u.username == key) = some rec := by
  intro store
  induction store with
  | nil => simp [upsertStore, List.find?, hkey]
  | cons u us ih =>
      by_cases h : u.username == key
      · simp [upsertStore, h, List.find?_cons_of_pos, hkey]
      · simpa [upsertStore, h, List.find?_cons_of_neg] using ih

/-- Claim C7: `upsertUser u m` immediately followed by `getUserByUsername u`
returns a record whose metrics equal `m` and whose username is the
lowercased `u`, for every prior store state (replacement, not merge). -/
theorem claim_C7_roundtrip :
    ∀ (store : List GitHubUser) (username : String) (m : GitHubMetrics) (now : Int),
      getUserByUsername (upsertUser store username m now).2 username =
        some { username := jsToLower username, fetchedAt := now, metrics := m } ∧
      (upsertUser store username m now).1 =
        { username := jsToLower username, fetchedAt := now, metrics := m } := by
  intro store username m now
  constructor
  · have h := find?_upsertStore (jsToLower username)
      { username := jsToLower username, fetchedAt := now, metrics := m } rfl store
    simp [getUserByUsername, upsertUser, h]
  · rfl

/-! ## External API payloads (`src/lib/services/github.ts`) -/

/-- One `languages.edges` entry: byte size and language name. -/
structure LangEdge where
  size : Nat
  name : String
deriving DecidableEq

/-- A repository node.  `createdAtYear` abstracts
`new Date(createdAt).getFullYear()`: the query only returns `createdAt` for
owned repositories, and only its calendar year is ever consumed. -/
structure Repository where
  name : String
  owner : String
  url : String
  isFork : Bool
  stargazerCount : Nat
  languages : List LangEdge
  createdAtYear : Option Int
deriving DecidableEq

/-- One `commitContributionsByRepository` entry of the stats query. -/
structure RepoContribution where
  contributionsTotalCount : Nat
  repository : Repository
deriving DecidableEq

/-- The `contributionsCollection` part of the stats query response. -/
structure ContributionsCollection where
  totalCommitContributions : Nat
  totalPullRequestContributions : Nat
  totalIssueContributions : Nat
  totalPullRequestReviewContributions : Nat
  calendarWeeks : List ContributionWeek
  commitContributionsByRepository : List RepoContribution
deriving DecidableEq

/-- The stats query response (rate-limit snapshot omitted: it is only
logged and never alters control flow). -/
structure StatsPayload where
  contributionsCollection : ContributionsCollection
  repositoryNodes : List Repository
  repositoriesContributedToCount : Nat
deriving DecidableEq

/-- A commit node of the commits query; `committedDate` is epoch ms. -/
structure CommitNode where
  committedDate : Int
  message : String
  url : String
  repoName : String
  repoOwner : String
deriving DecidableEq

/-- One repository entry of the commits query;
`historyNodes = none` models a null `defaultBranchRef?.target?.history`. -/
structure CommitsRepoEntry where
  historyNodes : Option (List CommitNode)
deriving DecidableEq

/-- The commits query response. -/
structure CommitsPayload where
  commitContributionsByRepository : List CommitsRepoEntry
deriving DecidableEq

/-- The external GraphQL endpoint: the outcome of each of the three
requests issued by `src/lib/services/github.ts`, per username.  An `error`
value is a thrown error carrying its message. -/
structure GitHubApi where
  probe : String → Except String Unit
  statsQuery : String → Except String StatsPayload
  commitsQuery : String → Except String CommitsPayload

/-! ## Metrics aggregator (`src/lib/services/github.ts`) -/

/-- One step of `calculateLongestStreak`'s loop over days; the state is
`(longestStreak, currentStreak)`. -/
def streakStep (s : Nat × Nat) (day : ContributionDay) : Nat × Nat :=
  if 0 < day.contributionCount then (max s.1 (s.2 + 1), s.2 + 1) else (s.1, 0)

/-- `weeks.flatMap(week => week.contributionDays)`. -/
def flatDays (weeks : List ContributionWeek) : List ContributionDay :=
  weeks.flatMap fun w => w.contributionDays

/-- `calculateLongestStreak` (github.ts lines 218-233): single scan over
the flattened days. -/
def calculateLongestStreak (weeks : List ContributionWeek) : Nat :=
  let allDays := flatDays weeks
  (allDays.foldl streakStep (0, 0)).1

/-- `languageBytes.set(name, (languageBytes.get(name) || 0) + size)` on an
insertion-ordered map. -/
def addBytes (m : List (String × Nat)) (nm : String) (size : Nat) :
    List (String × Nat) :=
  match m with
  | [] => [(nm, size)]
  | (k, b) :: rest =>
      if k == nm then (k, b + size) :: rest else (k, b) :: addBytes rest nm size

/-- The per-language byte map accumulated by `aggregateLanguages`'s loops. -/
def languageBytes (repositories : List RepoContribution) : List (String × Nat) :=
  repositories.foldl
    (fun m rc => rc.repository.languages.foldl (fun m' e => addBytes m' e.name e.size) m)
    []

/-- `totalBytes`: sum of the byte map's values. -/
def totalLangBytes (m : List (String × Nat)) : Nat :=
  (m.map Prod.snd).sum

/-- The uncapped list of `{name, percentage}` entries, one per byte-map
entry, with `percentage = Math.round(bytes / totalBytes * 100 * 10) / 10`. -/
def languagePercentages (m : List (String × Nat)) : List Language :=
  m.map fun e =>
    { name := e.1
      percentage := (jsRound ((e.2 : ℚ) / (totalLangBytes m : ℚ) * 100 * 10) : ℚ) / 10 }

/-- `aggregateLanguages` (github.ts lines 235-266). -/
def aggregateLanguages (repositories : List RepoContribution) : List Language :=
  let m := languageBytes repositories
  if totalLangBytes m = 0 then []
  else
    (sortBy (fun a b => decide (b.percentage ≤ a.percentage))
      (languagePercentages m)).take 10

/-- `getTopRepos` (github.ts lines 268-285): sort by contribution count
descending, take 5; additions/deletions are emitted as 0. -/
def getTopRepos (contributions : List RepoContribution) : List TopRepo :=
  ((sortBy (fun a b => decide (b.contributionsTotalCount ≤ a.contributionsTotalCount))
      contributions).take 5).map fun rc =>
    { name := rc.repository.name, owner := rc.repository.owner
      commits := rc.contributionsTotalCount, additions := 0, deletions := 0
      url := rc.repository.url }

/-- `countReposCreatedIn2025` (github.ts lines 287-294). -/
def countReposCreatedIn2025 (repos : List Repository) : Nat :=
  (repos.filter fun repo =>
    match repo.createdAtYear with
    | none => false
    | some y => decide (y = 2025) && !repo.isFork).length

/-- `countForkedRepos` (github.ts lines 296-298). -/
def countForkedRepos (repos : List Repository) : Nat :=
  (repos.filter fun repo => repo.isFork).length

/-- `calculateStarsReceived` (github.ts lines 300-302). -/
def calculateStarsReceived (repos : List Repository) : Nat :=
  repos.foldl (fun total repo => total + repo.stargazerCount) 0

/-- Mapping of a commit node to `{date, repo, message, url}`. -/
def commitInfoOf (c : CommitNode) : CommitInfo :=
  { date := c.committedDate, repo := c.repoOwner ++ "/" ++ c.repoName
    message := firstLine c.message, url := c.url }

/-- `fetchFirstAndLastCommits` (github.ts lines 304-358): degrades to
`(null, null)` on any fetch error; otherwise merges, sorts ascending by
date and takes the extremes. -/
def fetchFirstAndLastCommits (api : GitHubApi) (username : String) :
    Option CommitInfo × Option CommitInfo :=
  match api.commitsQuery username with
  | .error _ => (none, none)
  | .ok resp =>
      let allCommits := resp.commitContributionsByRepository.flatMap fun r =>
        match r.historyNodes with
        | some ns => ns
        | none => []
      if allCommits.isEmpty then (none, none)
      else
        let sorted := sortBy (fun a b => decide (a.committedDate ≤ b.committedDate)) allCommits
        ((sorted.head?).map commitInfoOf, (sorted.getLast?).map commitInfoOf)

/-- The `const metrics: GitHubMetrics = {...}` record literal of
`fetchGitHubMetrics` (github.ts lines 391-407).  The source literal sets no
`contributionCalendar` property, so the field is absent (`none`). -/
def buildMetrics (payload : StatsPayload)
    (commits : Option CommitInfo × Option CommitInfo) : GitHubMetrics :=
  let contributions := payload.contributionsCollection
  let commitsByRepo := contributions.commitContributionsByRepository
  { totalCommits := contributions.totalCommitContributions
    longestStreak := calculateLongestStreak contributions.calendarWeeks
    contributionCalendar := none
    reposCreated := countReposCreatedIn2025 payload.repositoryNodes
    reposContributed := payload.repositoriesContributedToCount
    reposForked := countForkedRepos payload.repositoryNodes
    languages := aggregateLanguages commitsByRepo
    totalPRs := contributions.totalPullRequestContributions
    totalIssues := contributions.totalIssueContributions
    codeReviewComments := contributions.totalPullRequestReviewContributions
    starsReceived := calculateStarsReceived payload.repositoryNodes
    topRepos := getTopRepos commitsByRepo
    firstCommit := commits.1
    lastCommit := commits.2 }

/-- `fetchGitHubMetrics` (github.ts lines 360-410): run the stats query
(propagating its error), fetch first/last commits (never throws), and
assemble the metrics record. -/
def fetchGitHubMetrics (api : GitHubApi) (username : String) :
    Except String GitHubMetrics :=
  match api.statsQuery username with
  | .error msg => .error msg
  | .ok payload => .ok (buildMetrics payload (fetchFirstAndLastCommits api username))

/-- `checkUserExists` (github.ts lines 412-438): success means the user
exists; an error message containing the GitHub "Could not resolve to a
User" literal means nonexistence; every other error is rethrown. -/
def checkUserExists (api : GitHubApi) (username : String) : Except String Bool :=
  match api.probe username with
  | .ok _ => .ok true
  | .error msg =>
      if strIncludes msg "Could not resolve to a User" then .ok false
      else .error msg

/-! ## Claim C2 — refreshed records are schema-incomplete (code bug) -/

/-- Claim C2 (code bug): the metrics record assembled by
`fetchGitHubMetrics` never carries `contributionCalendar` — the record
literal omits the field although the declared `GitHubMetrics` interface
requires it — so every record written by a refresh fails the cache
policy's schema-completeness check at every later time. -/
theorem claim_C2_refresh_incomplete :
    ∀ (payload : StatsPayload) (commits : Option CommitInfo × Option CommitInfo)
      (u : String) (t now : Int),
      (buildMetrics payload commits).contributionCalendar = none ∧
      isDataFresh { username := u, fetchedAt := t, metrics := buildMetrics payload commits } now = false := by
  intro payload commits u t now
  refine ⟨rfl, ?_⟩
  simp [isDataFresh, buildMetrics]

/-! ## Claim C4 — longest streak

`bestFrom c l` / `curFrom c l` describe the scan state of
`calculateLongestStreak` after processing `l`, starting with a current
streak of `c`: the best streak seen (ignoring an older best) and the
current streak. -/

/-- Best streak value produced by the scan of `l` started at current
streak `c` (not yet clamped with a previous best). -/
def bestFrom (c : Nat) : List ContributionDay → Nat
  | [] => c
  | d :: ds =>
      if 0 < d.contributionCount then bestFrom (c + 1) ds
      else max c (bestFrom 0 ds)

/-- Current streak after scanning `l`, starting from current streak `c`. -/
def curFrom (c : Nat) : List ContributionDay → Nat
  | [] => c
  | d :: ds => if 0 < d.contributionCount then curFrom (c + 1) ds else curFrom 0 ds

theorem le_bestFrom : ∀ (l : List ContributionDay) (c : Nat), c ≤ bestFrom c l := by
  intro l
  induction l with
  | nil => intro c; simp [bestFrom]
  | cons d ds ih =>
      intro c
      by_cases hd : 0 < d.contributionCount
      · calc c ≤ c + 1 := Nat.le_succ c
          _ ≤ bestFrom (c + 1) ds := ih (c + 1)
          _ = bestFrom c (d :: ds) := by simp [bestFrom, hd]
      · simp only [bestFrom, hd, if_neg, ite_false]
        exact Nat.le_max_left _ _

theorem bestFrom_mono : ∀ (l : List ContributionDay) {c c' : Nat}, c ≤ c' →
    bestFrom c l ≤ bestFrom c' l := by
  intro l
  induction l with
  | nil => intro c c' h; simpa [bestFrom] using h
  | cons d ds ih =>
      intro c c' h
      by_cases hd : 0 < d.contributionCount
      · simpa [bestFrom, hd] using ih (Nat.succ_le_succ h)
      · simp only [bestFrom, hd, ite_false]
        exact max_le_max h (le_refl _)

/-- The scan loop of `calculateLongestStreak`, run from any state with
`currentStreak ≤ longestStreak`, computes `bestFrom`/`curFrom`. -/
theorem foldl_streakStep : ∀ (l : List ContributionDay) (b c : Nat), c ≤ b →
    l.foldl streakStep (b, c) = (max b (bestFrom c l), curFrom c l) := by
  intro l
  induction l with
  | nil => intro b c h; simp [bestFrom, curFrom, Nat.max_eq_left h]
  | cons d ds ih =>
      intro b c h
      by_cases hd : 0 < d.contributionCount
      · rw [List.foldl_cons]
        have hstep : streakStep (b, c) d = (max b (c + 1), c + 1) := by
          simp [streakStep, hd]
        rw [hstep, ih (max b (c + 1)) (c + 1) (Nat.le_max_right _ _)]
        have hx : c + 1 ≤ bestFrom (c + 1) ds := le_bestFrom ds (c + 1)
        have hmax : max (max b (c + 1)) (bestFrom (c + 1) ds) =
            max b (bestFrom (c + 1) ds) := by
          rw [Nat.max_assoc, Nat.max_eq_right hx]
        rw [hmax]
        simp [bestFrom, curFrom, hd]
      · rw [List.foldl_cons]
        have hstep : streakStep (b, c) d = (b, 0) := by simp [streakStep, hd]
        rw [hstep, ih b 0 (Nat.zero_le b)]
        have hmax : max b (max c (bestFrom 0 ds)) = max b (bestFrom 0 ds) := by
          rw [← Nat.max_assoc, Nat.max_eq_left h]
        simp only [bestFrom, curFrom, hd, ite_false]
        rw [hmax]

theorem calculateLongestStreak_eq (weeks : List ContributionWeek) :
    calculateLongestStreak weeks = bestFrom 0 (flatDays weeks) := by
  show (List.foldl streakStep (0, 0) (flatDays weeks)).1 = bestFrom 0 (flatDays weeks)
  rw [foldl_streakStep (flatDays weeks) 0 0 (le_refl 0)]
  simp

/-- Scanning an all-positive block accumulates its length into the current
streak. -/
theorem bestFrom_append_pos : ∀ (mid post : List ContributionDay) (c : Nat),
    (∀ d ∈ mid, 0 < d.contributionCount) →
    bestFrom c (mid ++ post) = bestFrom (c + mid.length) post := by
  intro mid
  induction mid with
  | nil => intro post c _; simp
  | cons d ds ih =>
      intro post c hpos
      have hd : 0 < d.contributionCount := hpos d (by simp)
      calc bestFrom c ((d :: ds) ++ post)
          = bestFrom (c + 1) (ds ++ post) := by simp [bestFrom, hd]
        _ = bestFrom (c + 1 + ds.length) post :=
            ih post (c + 1) (fun x hx => hpos x (List.mem_cons_of_mem _ hx))
        _ = bestFrom (c + (d :: ds).length) post := by
            congr 1
            simp
            omega

/-- Every contiguous all-positive block is a lower bound on the scan's
result. -/
theorem bestFrom_run_le : ∀ (pre mid post : List ContributionDay),
    (∀ d ∈ mid, 0 < d.contributionCount) →
    mid.length ≤ bestFrom 0 (pre ++ (mid ++ post)) := by
  intro pre
  induction pre with
  | nil =>
      intro mid post hpos
      rw [List.nil_append, bestFrom_append_pos mid post 0 hpos]
      simpa using le_bestFrom post mid.length
  | cons d ds ih =>
      intro mid post hpos
      by_cases hd : 0 < d.contributionCount
      · calc mid.length ≤ bestFrom 0 (ds ++ (mid ++ post)) := ih mid post hpos
          _ ≤ bestFrom 1 (ds ++ (mid ++ post)) := bestFrom_mono _ (by omega)
          _ = bestFrom 0 ((d :: ds) ++ (mid ++ post)) := by simp [bestFrom, hd]
      · calc mid.length ≤ bestFrom 0 (ds ++ (mid ++ post)) := ih mid post hpos
          _ ≤ max 0 (bestFrom 0 (ds ++ (mid ++ post))) := Nat.le_max_right _ _
          _ = bestFrom 0 ((d :: ds) ++ (mid ++ post)) := by simp [bestFrom, hd]

/-- The scan's result is attained by some contiguous all-positive block
(possibly augmented by the incoming streak credit `c` when the block is a
prefix). -/
theorem bestFrom_attained : ∀ (l : List ContributionDay) (c : Nat),
    ∃ pre mid post : List ContributionDay,
      l = pre ++ mid ++ post ∧ (∀ d ∈ mid, 0 < d.contributionCount) ∧
      (bestFrom c l = mid.length ∨ (pre = [] ∧ bestFrom c l = c + mid.length)) := by
  intro l
  induction l with
  | nil =>
      intro c
      exact ⟨[], [], [], by simp, by simp, Or.inr ⟨rfl, by simp [bestFrom]⟩⟩
  | cons d ds ih =>
      intro c
      by_cases hd : 0 < d.contributionCount
      · obtain ⟨pre, mid, post, hsplit, hpos, hval⟩ := ih (c + 1)
        rcases hval with hv | ⟨hpre, hv⟩
        · exact ⟨d :: pre, mid, post, by simp [hsplit], hpos,
            Or.inl (by simp [bestFrom, hd, hv])⟩
        · subst hpre
          refine ⟨[], d :: mid, post, by simpa using hsplit, ?_, Or.inr ⟨rfl, ?_⟩⟩
          · intro x hx
            rcases List.mem_cons.mp hx with h | h
            · subst h; exact hd
            · exact hpos x h
          · simp only [bestFrom, hd, ite_true, if_pos]
            rw [hv]
            simp
            omega
      · obtain ⟨pre, mid, post, hsplit, hpos, hval⟩ := ih 0
        have hds : bestFrom 0 ds = mid.length := by
          rcases hval with h | ⟨_, h⟩
          · exact h
          · simpa using h
        by_cases hc : c ≤ bestFrom 0 ds
        · refine ⟨d :: pre, mid, post, by simp [hsplit], hpos, Or.inl ?_⟩
          simp only [bestFrom, hd, ite_false]
          rw [Nat.max_eq_right hc, hds]
        · refine ⟨[], [], d :: ds, by simp, by simp, Or.inr ⟨rfl, ?_⟩⟩
          simp only [bestFrom, hd, ite_false, List.length_nil, Nat.add_zero]
          exact Nat.max_eq_left (Nat.le_of_lt (Nat.lt_of_not_le hc))

/-- Claim C4: `calculateLongestStreak` equals the length of the longest
contiguous run of strictly-positive days in the flattened week-order day
sequence: every all-positive contiguous block is a lower bound, the value
is attained by such a block, an empty or all-zero calendar yields 0, and a
single positive run of length N surrounded by zeros yields exactly N
(github.ts lines 218-233). -/
theorem claim_C4_longestStreak : ∀ weeks : List ContributionWeek,
    (∀ pre mid post : List ContributionDay,
        flatDays weeks = pre ++ mid ++ post →
        (∀ d ∈ mid, 0 < d.contributionCount) →
        mid.length ≤ calculateLongestStreak weeks) ∧
    (∃ pre mid post : List ContributionDay,
        flatDays weeks = pre ++ mid ++ post ∧
        (∀ d ∈ mid, 0 < d.contributionCount) ∧
        mid.length = calculateLongestStreak weeks) ∧
    (flatDays weeks = [] → calculateLongestStreak weeks = 0) ∧
    ((∀ d ∈ flatDays weeks, d.contributionCount = 0) →
        calculateLongestStreak weeks = 0) ∧
    (∀ zpre run zpost : List ContributionDay,
        flatDays weeks = zpre ++ run ++ zpost →
        (∀ d ∈ zpre, d.contributionCount = 0) →
        (∀ d ∈ run, 0 < d.contributionCount) →
        (∀ d ∈ zpost, d.contributionCount = 0) →
        calculateLongestStreak weeks = run.length) := by
  intro weeks
  have hr := calculateLongestStreak_eq weeks
  obtain ⟨pre₀, mid₀, post₀, hsplit₀, hpos₀, hval₀⟩ :=
    bestFrom_attained (flatDays weeks) 0
  have hlen₀ : calculateLongestStreak weeks = mid₀.length := by
    rw [hr]
    rcases hval₀ with h | ⟨_, h⟩
    · exact h
    · simpa using h
  have hub : ∀ pre mid post : List ContributionDay,
      flatDays weeks = pre ++ mid ++ post →
      (∀ d ∈ mid, 0 < d.contributionCount) →
      mid.length ≤ calculateLongestStreak weeks := by
    intro pre mid post hsplit hpos
    rw [hr, hsplit, List.append_assoc]
    exact bestFrom_run_le pre mid post hpos
  refine ⟨hub, ⟨pre₀, mid₀, post₀, hsplit₀, hpos₀, hlen₀.symm⟩, ?_, ?_, ?_⟩
  · intro h
    rw [hr, h]
    simp [bestFrom]
  · intro hz
    match hmid : mid₀ with
    | [] => rw [hlen₀]; rfl
    | x :: xs =>
        exfalso
        have hx : 0 < x.contributionCount := hpos₀ x (by simp)
        have hmem : x ∈ flatDays weeks := by
          rw [hsplit₀]
          simp
        have := hz x hmem
        omega
  · intro zpre run zpost hsplit hz1 hpos hz3
    have hge : run.length ≤ calculateLongestStreak weeks := hub zpre run zpost hsplit hpos
    have hsub : mid₀.Sublist (flatDays weeks) := by
      have : mid₀ <:+: flatDays weeks := ⟨pre₀, post₀, hsplit₀.symm⟩
      exact this.sublist
    have hcount : mid₀.length ≤ run.length := by
      have h1 : mid₀.countP (fun d => decide (0 < d.contributionCount)) = mid₀.length :=
        List.countP_eq_length.mpr (by intro a ha; simpa using hpos₀ a ha)
      have h2 : (flatDays weeks).countP (fun d => decide (0 < d.contributionCount)) =
          run.length := by
        rw [hsplit, List.countP_append, List.countP_append]
        have hz1' : zpre.countP (fun d => decide (0 < d.contributionCount)) = 0 :=
          List.countP_eq_zero.mpr (by intro a ha; simp [hz1 a ha])
        have hz3' : zpost.countP (fun d => decide (0 < d.contributionCount)) = 0 :=
          List.countP_eq_zero.mpr (by intro a ha; simp [hz3 a ha])
        have hrun : run.countP (fun d => decide (0 < d.contributionCount)) = run.length :=
          List.countP_eq_length.mpr (by intro a ha; simpa using hpos a ha)
        rw [hz1', hz3', hrun]
        omega
      calc mid₀.length = mid₀.countP (fun d => decide (0 < d.contributionCount)) := h1.symm
        _ ≤ (flatDays weeks).countP (fun d => decide (0 < d.contributionCount)) :=
            hsub.countP_le _
        _ = run.length := h2
    have : calculateLongestStreak weeks ≤ run.length := by rw [hlen₀]; exact hcount
    omega

/-- A one-week calendar with a single positive run of length 2 surrounded
by zero days. -/
def sampleWeeks : List ContributionWeek :=
  [⟨[⟨"2025-01-01", 0⟩, ⟨"2025-01-02", 2⟩, ⟨"2025-01-03", 5⟩, ⟨"2025-01-04", 0⟩]⟩]

/-- Witness for C4: on `sampleWeeks` the single positive run has length 2
and the computed streak is exactly 2. -/
theorem claim_C4_longestStreak_witness : calculateLongestStreak sampleWeeks = 2 :=
  (claim_C4_longestStreak sampleWeeks).2.2.2.2
    [⟨"2025-01-01", 0⟩] [⟨"2025-01-02", 2⟩, ⟨"2025-01-03", 5⟩] [⟨"2025-01-04", 0⟩]
    (by decide) (by decide) (by decide) (by decide)

/-! ## Claim C5 — language percentage sums -/

theorem sum_map_sub {α : Type} (l : List α) (f g : α → ℚ) :
    (l.map fun a => f a - g a).sum = (l.map f).sum - (l.map g).sum := by
  induction l with
  | nil => simp
  | cons a as ih =>
      simp only [List.map_cons, List.sum_cons, ih]
      ring

theorem sum_map_div {α : Type} (l : List α) (f : α → ℚ) (c : ℚ) :
    (l.map fun a => f a / c).sum = (l.map f).sum / c := by
  induction l with
  | nil => simp
  | cons a as ih =>
      simp only [List.map_cons, List.sum_cons, ih]
      ring

theorem sum_map_mul_right {α : Type} (l : List α) (f : α → ℚ) (c : ℚ) :
    (l.map fun a => f a * c).sum = (l.map f).sum * c := by
  induction l with
  | nil => simp
  | cons a as ih =>
      simp only [List.map_cons, List.sum_cons, ih]
      ring

theorem abs_list_sum_le {α : Type} (l : List α) (f : α → ℚ) :
    |(l.map f).sum| ≤ (l.map fun a => |f a|).sum := by
  induction l with
  | nil => simp
  | cons a as ih =>
      simp only [List.map_cons, List.sum_cons]
      calc |f a + (as.map f).sum| ≤ |f a| + |(as.map f).sum| := abs_add _ _
        _ ≤ |f a| + (as.map fun x => |f x|).sum := by linarith

theorem list_sum_le_length_mul {α : Type} (l : List α) (f : α → ℚ) (C : ℚ)
    (h : ∀ a ∈ l, f a ≤ C) :
    (l.map f).sum ≤ l.length * C := by
  induction l with
  | nil => simp
  | cons a as ih =>
      simp only [List.map_cons, List.sum_cons, List.length_cons]
      have h1 := h a (by simp)
      have h2 := ih (fun x hx => h x (by simp [hx]))
      have h3 : ((as.length + 1 : ℕ) : ℚ) * C = (as.length : ℚ) * C + C := by
        push_cast
        ring
      rw [h3]
      linarith

/-- `Math.round` differs from its argument by at most `1/2`. -/
theorem jsRound_err (q : ℚ) : |(jsRound q : ℚ) - q| ≤ 1/2 := by
  have h1 : ((⌊q + 1/2⌋ : ℤ) : ℚ) ≤ q + 1/2 := Int.floor_le _
  have h2 : q + 1/2 < ((⌊q + 1/2⌋ : ℤ) : ℚ) + 1 := Int.lt_floor_add_one _
  simp only [jsRound]
  rw [abs_le]
  constructor <;> linarith

/-- The exact (pre-rounding) permille shares sum to 1000. -/
theorem sum_shares (m : List (String × Nat)) (hT : totalLangBytes m ≠ 0) :
    (m.map fun e => (e.2 : ℚ) / (totalLangBytes m : ℚ) * 100 * 10).sum = 1000 := by
  have hcast : ((totalLangBytes m : ℕ) : ℚ) ≠ 0 := Nat.cast_ne_zero.mpr hT
  have hfun : (fun e : String × Nat => (e.2 : ℚ) / (totalLangBytes m : ℚ) * 100 * 10)
      = fun e : String × Nat => (e.2 : ℚ) * (1000 / (totalLangBytes m : ℚ)) := by
    funext e
    field_simp
    ring
  rw [hfun, sum_map_mul_right]
  have hsum : (m.map fun e : String × Nat => (e.2 : ℚ)).sum = (totalLangBytes m : ℚ) := by
    rw [totalLangBytes, Nat.cast_list_sum, List.map_map]
    rfl
  rw [hsum]
  field_simp

/-- Claim C5 (amended): when total bytes is 0 (in particular on empty
input) `aggregateLanguages` returns the empty sequence; when total bytes is
positive, the sum of the uncapped one-decimal percentages differs from 100
by at most `0.05 · k`, where `k` is the number of distinct languages — the
claimed fixed tolerance of 0.1 is refuted by `claim_C5_cex` below
(github.ts lines 235-266). -/
theorem claim_C5_amended : ∀ repositories : List RepoContribution,
    (aggregateLanguages ([] : List RepoContribution) = []) ∧
    (totalLangBytes (languageBytes repositories) = 0 →
      aggregateLanguages repositories = []) ∧
    (0 < totalLangBytes (languageBytes repositories) →
      |((languagePercentages (languageBytes repositories)).map fun lg => lg.percentage).sum - 100|
        ≤ ((languageBytes repositories).length : ℚ) * (1/20)) := by
  intro repositories
  refine ⟨rfl, ?_, ?_⟩
  · intro h
    simp [aggregateLanguages, h]
  · intro hT
    have hTne : totalLangBytes (languageBytes repositories) ≠ 0 :=
      Nat.pos_iff_ne_zero.mp hT
    set m := languageBytes repositories with hm
    have hS : ((languagePercentages m).map fun lg => lg.percentage)
        = m.map fun e =>
            ((jsRound ((e.2 : ℚ) / (totalLangBytes m : ℚ) * 100 * 10) : ℤ) : ℚ) / 10 := by
      rw [languagePercentages, List.map_map]
      rfl
    have hkey : ((languagePercentages m).map fun lg => lg.percentage).sum - 100
        = (m.map fun e =>
            (((jsRound ((e.2 : ℚ) / (totalLangBytes m : ℚ) * 100 * 10) : ℤ) : ℚ)
              - (e.2 : ℚ) / (totalLangBytes m : ℚ) * 100 * 10) / 10).sum := by
      rw [show (fun e : String × Nat =>
            (((jsRound ((e.2 : ℚ) / (totalLangBytes m : ℚ) * 100 * 10) : ℤ) : ℚ)
              - (e.2 : ℚ) / (totalLangBytes m : ℚ) * 100 * 10) / 10)
          = fun e : String × Nat =>
            (((jsRound ((e.2 : ℚ) / (totalLangBytes m : ℚ) * 100 * 10) : ℤ) : ℚ)) / 10
              - ((e.2 : ℚ) / (totalLangBytes m : ℚ) * 100 * 10) / 10
        from funext fun e => by ring]
      rw [sum_map_sub,
        sum_map_div m (fun e : String × Nat =>
          (e.2 : ℚ) / (totalLangBytes m : ℚ) * 100 * 10) 10,
        sum_shares m hTne, hS]
      norm_num
    rw [hkey]
    calc |(m.map fun e =>
            (((jsRound ((e.2 : ℚ) / (totalLangBytes m : ℚ) * 100 * 10) : ℤ) : ℚ)
              - (e.2 : ℚ) / (totalLangBytes m : ℚ) * 100 * 10) / 10).sum|
        ≤ (m.map fun e =>
            |(((jsRound ((e.2 : ℚ) / (totalLangBytes m : ℚ) * 100 * 10) : ℤ) : ℚ)
              - (e.2 : ℚ) / (totalLangBytes m : ℚ) * 100 * 10) / 10|).sum :=
          abs_list_sum_le _ _
      _ ≤ (m.length : ℚ) * (1/20) := by
          apply list_sum_le_length_mul
          intro e _
          rw [abs_div]
          have herr := jsRound_err ((e.2 : ℚ) / (totalLangBytes m : ℚ) * 100 * 10)
          have h10 : |(10 : ℚ)| = 10 := by norm_num
          rw [h10]
          linarith

/-- A single repository whose language byte map is
`{A ↦ 1, B ↦ 1, C ↦ 1, D ↦ 13}` (total 16 bytes): every permille share is
an exact half, so `Math.round` rounds all four of them up. -/
def cexRepo : RepoContribution :=
  { contributionsTotalCount := 1
    repository :=
      { name := "r", owner := "o", url := "", isFork := false, stargazerCount := 0
        languages := [⟨1, "A"⟩, ⟨1, "B"⟩, ⟨1, "C"⟩, ⟨13, "D"⟩], createdAtYear := none } }

/-- Counterexample to C5 as stated: for the byte map of `cexRepo` the
uncapped percentages are `6.3, 6.3, 6.3, 81.3`, which sum to `100.2` —
not within the claimed `0.1` tolerance of `100.0` although total bytes is
positive. -/
theorem claim_C5_cex :
    0 < totalLangBytes (languageBytes [cexRepo]) ∧
    ((languagePercentages (languageBytes [cexRepo])).map fun lg => lg.percentage).sum = 501/5 ∧
    ¬ |((languagePercentages (languageBytes [cexRepo])).map fun lg => lg.percentage).sum - 100| ≤ 1/10 := by
  have hmap : languageBytes [cexRepo] = [("A", 1), ("B", 1), ("C", 1), ("D", 13)] := by
    decide
  have ht : totalLangBytes [(("A" : String), (1 : Nat)), ("B", 1), ("C", 1), ("D", 13)] = 16 := by
    decide
  have h63 : jsRound ((125 : ℚ) / 2) = 63 := by
    unfold jsRound
    rw [show (125 : ℚ) / 2 + 1/2 = ((63 : ℤ) : ℚ) by norm_num]
    exact Int.floor_intCast 63
  have h813 : jsRound ((1625 : ℚ) / 2) = 813 := by
    unfold jsRound
    rw [show (1625 : ℚ) / 2 + 1/2 = ((813 : ℤ) : ℚ) by norm_num]
    exact Int.floor_intCast 813
  have hsum : ((languagePercentages (languageBytes [cexRepo])).map fun lg => lg.percentage).sum
      = 501/5 := by
    rw [hmap]
    simp only [languagePercentages, ht, List.map_cons, List.map_nil, List.sum_cons,
      List.sum_nil]
    norm_num [h63, h813]
  refine ⟨by rw [hmap]; decide, hsum, ?_⟩
  rw [hsum, show (501/5 : ℚ) - 100 = 1/5 by norm_num,
    abs_of_nonneg (by norm_num : (0 : ℚ) ≤ 1/5)]
  norm_num

/-- Witness for the amended C5 at the concrete byte map of `cexRepo`
(4 languages, so the bound is `0.2`). -/
theorem claim_C5_witness :
    |((languagePercentages (languageBytes [cexRepo])).map fun lg => lg.percentage).sum - 100|
      ≤ ((languageBytes [cexRepo]).length : ℚ) * (1/20) :=
  (claim_C5_amended [cexRepo]).2.2 (by decide)

/-! ## Username validation

The regex `/^[a-z\d](?:[a-z\d]|-(?=[a-z\d])){0,38}$/i` of
`src/app/actions/user.ts`.  Every alternative of the quantified group
consumes exactly one character (the lookahead consumes none), so the match
is deterministic and is embedded as a recursive matcher with the `{0,38}`
budget as fuel. -/

/-- `[a-zA-Z0-9]` — the regex's `[a-z\d]` under the `i` flag. -/
def isAlnum (c : Char) : Bool :=
  (97 ≤ c.toNat && c.toNat ≤ 122) || (65 ≤ c.toNat && c.toNat ≤ 90) ||
    (48 ≤ c.toNat && c.toNat ≤ 57)

/-- Matcher for `(?:[a-z\d]|-(?=[a-z\d])){0,38}$` with remaining budget. -/
def ghRest : Nat → List Char → Bool
  | _, [] => true
  | 0, _ :: _ => false
  | n + 1, c :: cs =>
      if isAlnum c then ghRest n cs
      else if c = '-' then
        match cs with
        | [] => false
        | d :: _ => isAlnum d && ghRest n cs
      else false

/-- `usernameRegex.test(s)`. -/
def ghMatch (s : String) : Bool :=
  match s.data with
  | [] => false
  | c :: cs => isAlnum c && ghRest 38 cs

/-- The per-character condition of the matcher: alphanumeric, or a hyphen
whose next character is alphanumeric (the regex lookahead). -/
def headOK : Char → List Char → Bool
  | c, [] => isAlnum c
  | c, d :: _ => isAlnum c || (c == '-' && isAlnum d)

/-- Budget-free part of the matcher: every character is alphanumeric or a
hyphen followed by an alphanumeric character. -/
def restOK : List Char → Bool
  | [] => true
  | c :: cs => headOK c cs && restOK cs

theorem isAlnum_hyphen : isAlnum '-' = false := by decide

theorem headOK_of_alnum {c : Char} (cs : List Char) (h : isAlnum c = true) :
    headOK c cs = true := by
  cases cs <;> simp [headOK, h]

theorem headOK_of_other {c : Char} (cs : List Char) (h1 : ¬ isAlnum c = true)
    (h2 : c ≠ '-') : headOK c cs = false := by
  cases cs <;> simp [headOK, h1, h2]

theorem headOK_hyphen_cons (d : Char) (rest : List Char) :
    headOK '-' (d :: rest) = isAlnum d := by
  simp [headOK, isAlnum_hyphen]

theorem ghRest_iff : ∀ (cs : List Char) (n : Nat),
    ghRest n cs = true ↔ (cs.length ≤ n ∧ restOK cs = true) := by
  intro cs
  induction cs with
  | nil => intro n; simp [ghRest, restOK]
  | cons c cs' ih =>
      intro n
      match n with
      | 0 => simp [ghRest]
      | n + 1 =>
          have hsplit : restOK (c :: cs') = (headOK c cs' && restOK cs') := rfl
          by_cases hc : isAlnum c
          · rw [show ghRest (n + 1) (c :: cs') = ghRest n cs' from by
              simp [ghRest, hc]]
            rw [hsplit, headOK_of_alnum cs' hc, Bool.true_and, ih n]
            simp [Nat.succ_le_succ_iff]
          · by_cases hh : c = '-'
            · subst hh
              match cs' with
              | [] => simp [ghRest, restOK, headOK, isAlnum_hyphen]
              | d :: rest =>
                  rw [show ghRest (n + 1) ('-' :: d :: rest)
                      = (isAlnum d && ghRest n (d :: rest)) from by
                    simp [ghRest, isAlnum_hyphen]]
                  rw [show restOK ('-' :: d :: rest)
                      = (headOK '-' (d :: rest) && restOK (d :: rest)) from rfl]
                  rw [headOK_hyphen_cons d rest]
                  rw [Bool.and_eq_true, Bool.and_eq_true, ih n]
                  constructor
                  · rintro ⟨h1, h2, h3⟩
                    exact ⟨Nat.succ_le_succ h2, h1, h3⟩
                  · rintro ⟨h1, h2, h3⟩
                    exact ⟨h2, Nat.le_of_succ_le_succ h1, h3⟩
            · rw [show ghRest (n + 1) (c :: cs') = false from by
                simp [ghRest, hc, hh]]
              rw [hsplit, headOK_of_other cs' hc hh]
              simp

theorem restOK_alphabet : ∀ cs : List Char, restOK cs = true →
    ∀ c ∈ cs, isAlnum c = true ∨ c = '-' := by
  intro cs
  induction cs with
  | nil => intro _ c hc; cases hc
  | cons x cs' ih =>
      intro h c hc
      rw [show restOK (x :: cs') = (headOK x cs' && restOK cs') from rfl,
        Bool.and_eq_true] at h
      rcases List.mem_cons.mp hc with heq | hmem
      · rw [heq]
        by_cases hx : isAlnum x
        · exact Or.inl hx
        · by_cases hh : x = '-'
          · exact Or.inr hh
          · exfalso
            have h1 := h.1
            rw [headOK_of_other cs' hx hh] at h1
            exact Bool.false_ne_true h1
      · exact ih h.2 c hmem

theorem restOK_hyphen : ∀ cs : List Char, restOK cs = true →
    ∀ j : Nat, cs.get? j = some '-' →
      ∃ d, cs.get? (j + 1) = some d ∧ isAlnum d = true := by
  intro cs
  induction cs with
  | nil => intro _ j hj; simp at hj
  | cons x cs' ih =>
      intro h j hj
      rw [show restOK (x :: cs') = (headOK x cs' && restOK cs') from rfl,
        Bool.and_eq_true] at h
      match j with
      | 0 =>
          rw [List.get?_cons_zero] at hj
          injection hj with hx
          subst hx
          have hc := h.1
          cases cs' with
          | nil =>
              rw [show headOK '-' ([] : List Char) = false from by
                simp [headOK, isAlnum_hyphen]] at hc
              exact absurd hc Bool.false_ne_true
          | cons d rest =>
              rw [headOK_hyphen_cons d rest] at hc
              exact ⟨d, rfl, hc⟩
      | j + 1 =>
          rw [List.get?_cons_succ] at hj
          obtain ⟨d, hd, ha⟩ := ih h.2 j hj
          exact ⟨d, by simpa [List.get?_cons_succ] using hd, ha⟩

theorem restOK_of_props : ∀ cs : List Char,
    (∀ c ∈ cs, isAlnum c = true ∨ c = '-') →
    (∀ j : Nat, cs.get? j = some '-' →
      ∃ d, cs.get? (j + 1) = some d ∧ isAlnum d = true) →
    restOK cs = true := by
  intro cs
  induction cs with
  | nil => intro _ _; rfl
  | cons x cs' ih =>
      intro halpha hpos
      rw [show restOK (x :: cs') = (headOK x cs' && restOK cs') from rfl,
        Bool.and_eq_true]
      constructor
      · rcases halpha x (by simp) with hx | hx
        · exact headOK_of_alnum cs' hx
        · subst hx
          obtain ⟨d, hd, ha⟩ := hpos 0 (by rw [List.get?_cons_zero])
          rw [List.get?_cons_succ] at hd
          cases cs' with
          | nil => simp at hd
          | cons e rest =>
              rw [List.get?_cons_zero] at hd
              injection hd with hd2
              subst hd2
              rw [headOK_hyphen_cons]
              exact ha
      · refine ih (fun c hc => halpha c (List.mem_cons_of_mem _ hc)) ?_
        intro j hj
        have := hpos (j + 1) (by simpa [List.get?_cons_succ] using hj)
        simpa [List.get?_cons_succ] using this

/-- The GitHub username grammar exactly as the specification words it:
1-39 characters, each alphanumeric or a hyphen, and every hyphen has an
alphanumeric character directly before and after it (so hyphens are never
at the start or end and never consecutive; at `i = 0` the truncated index
`i - 1 = 0` points at the hyphen itself, which is not alphanumeric). -/
def validGithubUsername (l : List Char) : Prop :=
  1 ≤ l.length ∧ l.length ≤ 39 ∧
  (∀ c ∈ l, isAlnum c = true ∨ c = '-') ∧
  (∀ i : Nat, l.get? i = some '-' →
    (∃ a, l.get? (i - 1) = some a ∧ isAlnum a = true) ∧
    (∃ b, l.get? (i + 1) = some b ∧ isAlnum b = true))

/-- The regex accepts exactly the grammar of the specification. -/
theorem ghMatch_iff_valid (s : String) :
    ghMatch s = true ↔ validGithubUsername s.data := by
  rw [ghMatch]
  match hdata : s.data with
  | [] => simp [validGithubUsername]
  | c :: cs =>
      rw [Bool.and_eq_true, ghRest_iff]
      constructor
      · rintro ⟨hc, hlen, hrest⟩
        refine ⟨by simp, by simp; omega, ?_, ?_⟩
        · intro x hx
          rcases List.mem_cons.mp hx with rfl | hmem
          · exact Or.inl hc
          · exact restOK_alphabet cs hrest x hmem
        · intro i hi
          match i with
          | 0 =>
              rw [List.get?_cons_zero] at hi
              injection hi with hi2
              subst hi2
              rw [isAlnum_hyphen] at hc
              exact absurd hc Bool.false_ne_true
          | j + 1 =>
              rw [List.get?_cons_succ] at hi
              constructor
              · match j with
                | 0 => exact ⟨c, by simp, hc⟩
                | k + 1 =>
                    have hklt : k + 1 < cs.length := (List.get?_eq_some.mp hi).1
                    have hk : k < cs.length := by omega
                    obtain ⟨a, ha⟩ : ∃ a, cs.get? k = some a :=
                      ⟨cs.get ⟨k, hk⟩, List.get?_eq_get hk⟩
                    refine ⟨a, by simpa [List.get?_cons_succ] using ha, ?_⟩
                    rcases restOK_alphabet cs hrest a (List.get?_mem ha) with h | h
                    · exact h
                    · exfalso
                      subst h
                      obtain ⟨d, hd, hda⟩ := restOK_hyphen cs hrest k ha
                      rw [hi] at hd
                      injection hd with hd2
                      rw [← hd2, isAlnum_hyphen] at hda
                      exact Bool.false_ne_true hda
              · obtain ⟨d, hd, hda⟩ := restOK_hyphen cs hrest j hi
                exact ⟨d, by simpa [List.get?_cons_succ] using hd, hda⟩
      · rintro ⟨_, h39, halpha, hpos⟩
        have hc : isAlnum c = true := by
          rcases halpha c (by simp) with h | h
          · exact h
          · exfalso
            subst h
            obtain ⟨⟨a, ha, haa⟩, _⟩ := hpos 0 (by rw [List.get?_cons_zero])
            rw [show (0 : Nat) - 1 = 0 from rfl, List.get?_cons_zero] at ha
            injection ha with ha2
            rw [← ha2, isAlnum_hyphen] at haa
            exact Bool.false_ne_true haa
        refine ⟨hc, by simp at h39; omega, ?_⟩
        refine restOK_of_props cs (fun x hx => halpha x (List.mem_cons_of_mem _ hx)) ?_
        intro j hj
        obtain ⟨_, b, hb, hba⟩ := hpos (j + 1) (by simpa [List.get?_cons_succ] using hj)
        exact ⟨b, by simpa [List.get?_cons_succ] using hb, hba⟩

/-- A string matched by the username regex is nonempty. -/
theorem ghMatch_nonempty (s : String) (h : ghMatch s = true) : s ≠ "" := by
  intro he
  subst he
  exact absurd h (by decide)

/-! ## Lookup orchestrator (`src/app/actions/user.ts`) -/

/-- The result type of `lookupUser`. -/
inductive LookupUserResult where
  | success (user : GitHubUser)
  | failure (error : String)
deriving DecidableEq

/-- The `catch` block of `lookupUser` (user.ts lines 449-471): classify the
message, else fall back to a (re-queried) cached record. -/
def lookupCatch (store : List GitHubUser) (trimmedUsername msg : String) :
    LookupUserResult × List GitHubUser :=
  if strIncludes msg "Bad credentials" || strIncludes msg "401" then
    (.failure "GitHub API authentication failed. Please check GITHUB_TOKEN.", store)
  else if strIncludes msg "rate limit" then
    (.failure "GitHub API rate limit exceeded. Please try again later.", store)
  else
    match getUserByUsername store trimmedUsername with
    | some cachedUser => (.success cachedUser, store)
    | none => (.failure "Failed to fetch GitHub data. Please try again.", store)

/-- The existence-check / fetch / upsert part of `lookupUser`'s `try`
block (user.ts lines 435-448), with thrown errors routed to the catch. -/
def lookupRefresh (store : List GitHubUser) (api : GitHubApi) (now : Int)
    (trimmedUsername : String) : LookupUserResult × List GitHubUser :=
  match checkUserExists api trimmedUsername with
  | .error msg => lookupCatch store trimmedUsername msg
  | .ok false => (.failure "GitHub user not found", store)
  | .ok true =>
      match fetchGitHubMetrics api trimmedUsername with
      | .error msg => lookupCatch store trimmedUsername msg
      | .ok metrics =>
          let res := upsertUser store trimmedUsername metrics now
          (.success res.1, res.2)

/-- `lookupUser` (user.ts lines 413-472): validate, serve a fresh cached
record, otherwise refresh with stale fallback. -/
def lookupUser (store : List GitHubUser) (api : GitHubApi) (now : Int)
    (username : String) : LookupUserResult × List GitHubUser :=
  let trimmedUsername := jsToLower (jsTrim username)
  if trimmedUsername = "" then (.failure "Username is required", store)
  else if ghMatch trimmedUsername = false then
    (.failure "Invalid GitHub username format", store)
  else
    match getUserByUsername store trimmedUsername with
    | some cachedUser =>
        if isDataFresh cachedUser now then (.success cachedUser, store)
        else lookupRefresh store api now trimmedUsername
    | none => lookupRefresh store api now trimmedUsername

/-- The `try`/`catch` of `getOrFetchUser` (user.ts lines 385-410): the
catch returns the previously looked-up `cachedUser` (or null). -/
def getOrFetchRefresh (cachedUser : Option GitHubUser) (store : List GitHubUser)
    (api : GitHubApi) (now : Int) (trimmedUsername : String) :
    Option GitHubUser × List GitHubUser :=
  match checkUserExists api trimmedUsername with
  | .error _ => (cachedUser, store)
  | .ok false => (none, store)
  | .ok true =>
      match fetchGitHubMetrics api trimmedUsername with
      | .error _ => (cachedUser, store)
      | .ok metrics =>
          let res := upsertUser store trimmedUsername metrics now
          (some res.1, res.2)

/-- `getOrFetchUser` (user.ts lines 363-411): like `lookupUser` but every
failure becomes `null` and all refresh errors fall back to the cached
record captured before the `try`. -/
def getOrFetchUser (store : List GitHubUser) (api : GitHubApi) (now : Int)
    (username : String) : Option GitHubUser × List GitHubUser :=
  let trimmedUsername := jsToLower (jsTrim username)
  if trimmedUsername = "" then (none, store)
  else if ghMatch trimmedUsername = false then (none, store)
  else
    match getUserByUsername store trimmedUsername with
    | some cachedUser =>
        if isDataFresh cachedUser now then (some cachedUser, store)
        else getOrFetchRefresh (some cachedUser) store api now trimmedUsername
    | none => getOrFetchRefresh none store api now trimmedUsername

/-! ## Average stats (`src/app/actions/user.ts` lines 305-357) -/

/-- The shape returned by `getAverageStats`. -/
structure AverageStats where
  totalCommits : Int
  longestStreak : Int
  totalPRs : Int
  totalIssues : Int
  starsReceived : Int
  userCount : Nat
deriving DecidableEq

/-- The single `$group` row of the aggregation (absent on an empty
collection). -/
structure GroupAverages where
  avgCommits : ℚ
  avgStreak : ℚ
  avgPRs : ℚ
  avgIssues : ℚ
  avgStars : ℚ
  count : Nat

/-- Running-sum accumulator over the collection, as the `$avg`/`$sum`
accumulators process documents. -/
def sumOver (store : List GitHubUser) (f : GitHubUser → Nat) : Nat :=
  store.foldl (fun s u => s + f u) 0

/-- MongoDB `$group` with `$avg` over each metrics field and `$sum: 1`:
yields no row for an empty collection, else each `$avg` is the accumulated
sum divided by the document count. -/
def mongoGroupAverages (store : List GitHubUser) : Option GroupAverages :=
  match store with
  | [] => none
  | _ =>
      some
        { avgCommits := ((sumOver store fun u => u.metrics.totalCommits : ℕ) : ℚ) / (store.length : ℚ)
          avgStreak := ((sumOver store fun u => u.metrics.longestStreak : ℕ) : ℚ) / (store.length : ℚ)
          avgPRs := ((sumOver store fun u => u.metrics.totalPRs : ℕ) : ℚ) / (store.length : ℚ)
          avgIssues := ((sumOver store fun u => u.metrics.totalIssues : ℕ) : ℚ) / (store.length : ℚ)
          avgStars := ((sumOver store fun u => u.metrics.starsReceived : ℕ) : ℚ) / (store.length : ℚ)
          count := store.length }

/-- `getAverageStats`: `Math.round(stats?.avgX ?? 0)` on each field and
`stats?.count ?? 0`. -/
def getAverageStats (store : List GitHubUser) : AverageStats :=
  let stats := mongoGroupAverages store
  { totalCommits := jsRound (match stats with | some s => s.avgCommits | none => 0)
    longestStreak := jsRound (match stats with | some s => s.avgStreak | none => 0)
    totalPRs := jsRound (match stats with | some s => s.avgPRs | none => 0)
    totalIssues := jsRound (match stats with | some s => s.avgIssues | none => 0)
    starsReceived := jsRound (match stats with | some s => s.avgStars | none => 0)
    userCount := match stats with | some s => s.count | none => 0 }

theorem jsRound_zero : jsRound 0 = 0 := by
  unfold jsRound
  rw [zero_add]
  rw [Int.floor_eq_zero_iff.mpr]
  rw [Set.mem_Ico]
  norm_num

theorem sumOver_cast (store : List GitHubUser) (f : GitHubUser → Nat) :
    ((sumOver store f : ℕ) : ℚ) = (store.map fun u => (f u : ℚ)).sum := by
  have hgen : ∀ (l : List GitHubUser) (s : Nat),
      l.foldl (fun a u => a + f u) s = s + (l.map f).sum := by
    intro l
    induction l with
    | nil => intro s; simp
    | cons x xs ih =>
        intro s
        simp only [List.foldl_cons, List.map_cons, List.sum_cons, ih]
        omega
  have h : sumOver store f = (store.map f).sum := by
    simpa [sumOver] using hgen store 0
  rw [h, Nat.cast_list_sum, List.map_map]
  rfl

/-- Claim C9: on an empty store every averaged field of
`getAverageStats` is 0 and `userCount` is 0; on a nonempty store each
field is the arithmetic mean of that field over all records, rounded, and
`userCount` is the record count (user.ts lines 320-357). -/
theorem claim_C9_averageStats :
    (getAverageStats [] =
      { totalCommits := 0, longestStreak := 0, totalPRs := 0, totalIssues := 0,
        starsReceived := 0, userCount := 0 }) ∧
    ∀ store : List GitHubUser, store ≠ [] →
      getAverageStats store =
        { totalCommits := jsRound ((store.map fun u => (u.metrics.totalCommits : ℚ)).sum / (store.length : ℚ))
          longestStreak := jsRound ((store.map fun u => (u.metrics.longestStreak : ℚ)).sum / (store.length : ℚ))
          totalPRs := jsRound ((store.map fun u => (u.metrics.totalPRs : ℚ)).sum / (store.length : ℚ))
          totalIssues := jsRound ((store.map fun u => (u.metrics.totalIssues : ℚ)).sum / (store.length : ℚ))
          starsReceived := jsRound ((store.map fun u => (u.metrics.starsReceived : ℚ)).sum / (store.length : ℚ))
          userCount := store.length } := by
  constructor
  · simp [getAverageStats, mongoGroupAverages, jsRound_zero]
  · intro store hne
    cases store with
    | nil => exact absurd rfl hne
    | cons x xs =>
        simp only [getAverageStats, mongoGroupAverages, sumOver_cast]

/-- Witness for C9 on a concrete one-record store. -/
theorem claim_C9_averageStats_witness :
    getAverageStats [aliceRecord] =
      { totalCommits := jsRound (([aliceRecord].map fun u => (u.metrics.totalCommits : ℚ)).sum / (([aliceRecord] : List GitHubUser).length : ℚ))
        longestStreak := jsRound (([aliceRecord].map fun u => (u.metrics.longestStreak : ℚ)).sum / (([aliceRecord] : List GitHubUser).length : ℚ))
        totalPRs := jsRound (([aliceRecord].map fun u => (u.metrics.totalPRs : ℚ)).sum / (([aliceRecord] : List GitHubUser).length : ℚ))
        totalIssues := jsRound (([aliceRecord].map fun u => (u.metrics.totalIssues : ℚ)).sum / (([aliceRecord] : List GitHubUser).length : ℚ))
        starsReceived := jsRound (([aliceRecord].map fun u => (u.metrics.starsReceived : ℚ)).sum / (([aliceRecord] : List GitHubUser).length : ℚ))
        userCount := 1 } :=
  (claim_C9_averageStats.2 [aliceRecord] (by simp))

/-! ## Boundary facts shared by the orchestrator claims -/

theorem checkUserExists_ok (api : GitHubApi) (t : String)
    (hp : api.probe t = .ok ()) : checkUserExists api t = .ok true := by
  unfold checkUserExists
  rw [hp]

theorem checkUserExists_rethrow (api : GitHubApi) (t m : String)
    (hp : api.probe t = .error m)
    (hres : strIncludes m "Could not resolve to a User" = false) :
    checkUserExists api t = .error m := by
  unfold checkUserExists
  rw [hp]
  show (if strIncludes m "Could not resolve to a User" = true then Except.ok false
    else Except.error m) = Except.error m
  rw [if_neg (by simp [hres])]

theorem fetchGitHubMetrics_error (api : GitHubApi) (t m : String)
    (hs : api.statsQuery t = .error m) :
    fetchGitHubMetrics api t = .error m := by
  unfold fetchGitHubMetrics
  rw [hs]

/-! ## Shapes of post-validation results of `lookupUser` -/

/-- The possible results of `lookupUser` once validation has passed. -/
def postValidationResult (r : LookupUserResult) : Prop :=
  (∃ u, r = .success u) ∨
  r = .failure "GitHub user not found" ∨
  r = .failure "GitHub API authentication failed. Please check GITHUB_TOKEN." ∨
  r = .failure "GitHub API rate limit exceeded. Please try again later." ∨
  r = .failure "Failed to fetch GitHub data. Please try again."

theorem lookupCatch_post (store : List GitHubUser) (t msg : String) :
    postValidationResult (lookupCatch store t msg).1 := by
  unfold lookupCatch postValidationResult
  split
  · right; right; left; rfl
  · split
    · right; right; right; left; rfl
    · split
      · left; exact ⟨_, rfl⟩
      · right; right; right; right; rfl

theorem lookupCatch_shape (store : List GitHubUser) (t msg : String) :
    (∃ u, (lookupCatch store t msg).1 = .success u) ∨
    (lookupCatch store t msg).1 =
      .failure "GitHub API authentication failed. Please check GITHUB_TOKEN." ∨
    (lookupCatch store t msg).1 =
      .failure "GitHub API rate limit exceeded. Please try again later." ∨
    (lookupCatch store t msg).1 =
      .failure "Failed to fetch GitHub data. Please try again." := by
  unfold lookupCatch
  split
  · right; left; rfl
  · split
    · right; right; left; rfl
    · split
      · left; exact ⟨_, rfl⟩
      · right; right; right; rfl

theorem lookupCatch_ne_notfound (store : List GitHubUser) (t msg : String) :
    (lookupCatch store t msg).1 ≠ .failure "GitHub user not found" := by
  intro heq
  rcases lookupCatch_shape store t msg with ⟨u, h⟩ | h | h | h <;> rw [heq] at h <;>
    first
      | exact LookupUserResult.noConfusion h
      | (injection h with hs; exact absurd hs (by decide))

theorem lookupRefresh_post (store : List GitHubUser) (api : GitHubApi) (now : Int)
    (t : String) : postValidationResult (lookupRefresh store api now t).1 := by
  unfold lookupRefresh
  split
  · exact lookupCatch_post store t _
  · unfold postValidationResult
    right; left; rfl
  · split
    · exact lookupCatch_post store t _
    · unfold postValidationResult
      left; exact ⟨_, rfl⟩

theorem lookupUser_post (store : List GitHubUser) (api : GitHubApi) (now : Int)
    (username : String) (h1 : jsToLower (jsTrim username) ≠ "")
    (h2 : ghMatch (jsToLower (jsTrim username)) = true) :
    postValidationResult (lookupUser store api now username).1 := by
  simp only [lookupUser, if_neg h1, if_neg (by simp [h2] :
    ¬ ghMatch (jsToLower (jsTrim username)) = false)]
  split
  · split
    · unfold postValidationResult
      left; exact ⟨_, rfl⟩
    · exact lookupRefresh_post store api now _
  · exact lookupRefresh_post store api now _

theorem post_ne_validation {r : LookupUserResult} (h : postValidationResult r) :
    r ≠ .failure "Username is required" ∧ r ≠ .failure "Invalid GitHub username format" := by
  constructor <;>
    · intro heq
      rcases h with ⟨u, hs⟩ | hs | hs | hs | hs <;> rw [heq] at hs <;>
        first
          | exact LookupUserResult.noConfusion hs
          | (injection hs with hss; exact absurd hss (by decide))

/-! ## Claim C8 — input validation -/

/-- Claim C8: `lookupUser` fails with the empty-input error iff the input
is blank after trimming; otherwise it fails with the invalid-format error
iff the trimmed, lowercased input violates the GitHub username grammar
(1-39 chars, alphanumeric, single hyphens only between alphanumerics); and
the regex used by the code accepts exactly that grammar
(user.ts lines 413-424). -/
theorem claim_C8_validation :
    ∀ (store : List GitHubUser) (api : GitHubApi) (now : Int) (username : String),
      ((lookupUser store api now username).1 = .failure "Username is required" ↔
        jsToLower (jsTrim username) = "") ∧
      ((lookupUser store api now username).1 = .failure "Invalid GitHub username format" ↔
        (jsToLower (jsTrim username) ≠ "" ∧
          ¬ validGithubUsername (jsToLower (jsTrim username)).data)) ∧
      (ghMatch (jsToLower (jsTrim username)) = true ↔
        validGithubUsername (jsToLower (jsTrim username)).data) := by
  intro store api now username
  by_cases he : jsToLower (jsTrim username) = ""
  · refine ⟨⟨fun _ => he, fun _ => ?_⟩, ⟨fun hfail => ?_, fun h => absurd he h.1⟩,
      ghMatch_iff_valid _⟩
    · simp only [lookupUser, if_pos he]
    · simp only [lookupUser, if_pos he] at hfail
      exact absurd hfail (by decide)
  · by_cases hm : ghMatch (jsToLower (jsTrim username)) = true
    · have hpost := lookupUser_post store api now username he hm
      have hnv := post_ne_validation hpost
      refine ⟨⟨fun hfail => absurd hfail hnv.1, fun h => absurd h he⟩,
        ⟨fun hfail => absurd hfail hnv.2, ?_⟩, ghMatch_iff_valid _⟩
      rintro ⟨_, hbad⟩
      exact absurd ((ghMatch_iff_valid _).mp hm) hbad
    · have hmf : ghMatch (jsToLower (jsTrim username)) = false := by
        cases hq : ghMatch (jsToLower (jsTrim username)) with
        | true => exact absurd hq hm
        | false => rfl
      refine ⟨⟨fun hfail => ?_, fun h => absurd h he⟩,
        ⟨fun _ => ⟨he, fun hv => ?_⟩, fun _ => ?_⟩, ghMatch_iff_valid _⟩
      · simp only [lookupUser, if_neg he, if_pos hmf] at hfail
        exact absurd hfail (by decide)
      · have htv := (ghMatch_iff_valid (jsToLower (jsTrim username))).mpr hv
        rw [hmf] at htv
        exact Bool.false_ne_true htv
      · simp only [lookupUser, if_neg he, if_pos hmf]

/-- A stub external API whose probe succeeds and whose queries fail. -/
def stubApi : GitHubApi :=
  { probe := fun _ => .ok (), statsQuery := fun _ => .error "x"
    commitsQuery := fun _ => .error "x" }

/-- Witness for C8: a blank input yields the empty-input error. -/
theorem claim_C8_validation_witness :
    (lookupUser [] stubApi 0 "  ").1 = .failure "Username is required" :=
  (claim_C8_validation [] stubApi 0 "  ").1.mpr (by decide)

/-! ## Claim C1 — stale fallback versus auth/rate-limit classification -/

theorem lookupUser_not_fresh (store : List GitHubUser) (api : GitHubApi) (now : Int)
    (username : String) (c : GitHubUser)
    (he : jsToLower (jsTrim username) ≠ "")
    (hm : ghMatch (jsToLower (jsTrim username)) = true)
    (hcache : getUserByUsername store (jsToLower (jsTrim username)) = some c)
    (hfresh : isDataFresh c now = false) :
    lookupUser store api now username =
      lookupRefresh store api now (jsToLower (jsTrim username)) := by
  simp only [lookupUser, if_neg he, if_neg (by simp [hm] :
    ¬ ghMatch (jsToLower (jsTrim username)) = false)]
  split
  · rename_i cachedUser heq
    rw [hcache] at heq
    injection heq with heq2
    subst heq2
    rw [if_neg (by simp [hfresh])]
  · rfl

theorem lookupRefresh_probe_error (store : List GitHubUser) (api : GitHubApi)
    (now : Int) (t m : String) (hch : checkUserExists api t = .error m) :
    lookupRefresh store api now t = lookupCatch store t m := by
  unfold lookupRefresh
  split
  · rename_i msg heq
    rw [hch] at heq
    injection heq with heq2
    subst heq2
    rfl
  · rename_i heq
    rw [hch] at heq
    exact absurd heq (by simp)
  · rename_i heq
    rw [hch] at heq
    exact absurd heq (by simp)

theorem lookupRefresh_fetch_error (store : List GitHubUser) (api : GitHubApi)
    (now : Int) (t m : String) (hch : checkUserExists api t = .ok true)
    (hfm : fetchGitHubMetrics api t = .error m) :
    lookupRefresh store api now t = lookupCatch store t m := by
  unfold lookupRefresh
  split
  · rename_i msg heq
    rw [hch] at heq
    exact absurd heq (by simp)
  · rename_i heq
    rw [hch] at heq
    exact absurd heq (by simp)
  · split
    · rename_i msg heq
      rw [hfm] at heq
      injection heq with heq2
      subst heq2
      rfl
    · rename_i metrics heq
      rw [hfm] at heq
      exact absurd heq (by simp)

theorem lookupCatch_fallback (store : List GitHubUser) (t m : String)
    (h1 : strIncludes m "Bad credentials" = false)
    (h2 : strIncludes m "401" = false)
    (h3 : strIncludes m "rate limit" = false) :
    lookupCatch store t m =
      (match getUserByUsername store t with
       | some cachedUser => (.success cachedUser, store)
       | none => (.failure "Failed to fetch GitHub data. Please try again.", store)) := by
  unfold lookupCatch
  rw [if_neg (by simp [h1, h2]), if_neg (by simp [h3])]

theorem lookupCatch_auth (store : List GitHubUser) (t m : String)
    (h : strIncludes m "Bad credentials" = true ∨ strIncludes m "401" = true) :
    lookupCatch store t m =
      (.failure "GitHub API authentication failed. Please check GITHUB_TOKEN.", store) := by
  unfold lookupCatch
  rw [if_pos (by rcases h with h | h <;> simp [h])]

theorem lookupCatch_rate (store : List GitHubUser) (t m : String)
    (h1 : strIncludes m "Bad credentials" = false)
    (h2 : strIncludes m "401" = false)
    (h3 : strIncludes m "rate limit" = true) :
    lookupCatch store t m =
      (.failure "GitHub API rate limit exceeded. Please try again later.", store) := by
  unfold lookupCatch
  rw [if_neg (by simp [h1, h2]), if_pos (by simp [h3])]

/-- Claim C1 (amended): when the existence probe or the metrics fetch
throws while a stale cached record exists, the cached record is served as
a degraded success only if the error message matches none of the auth
markers ("Bad credentials", "401") and not the rate-limit marker; a
message matching an auth marker yields the auth error, and one matching
only the rate-limit marker yields the rate-limit error, in both cases even
though the cached record exists (user.ts lines 449-471). -/
theorem claim_C1_amended :
    ∀ (store : List GitHubUser) (api : GitHubApi) (now : Int)
      (username : String) (c : GitHubUser) (m : String),
      ghMatch (jsToLower (jsTrim username)) = true →
      getUserByUsername store (jsToLower (jsTrim username)) = some c →
      isDataFresh c now = false →
      ((api.probe (jsToLower (jsTrim username)) = .error m ∧
          strIncludes m "Could not resolve to a User" = false) ∨
        (api.probe (jsToLower (jsTrim username)) = .ok () ∧
          api.statsQuery (jsToLower (jsTrim username)) = .error m)) →
      (strIncludes m "Bad credentials" = false → strIncludes m "401" = false →
        strIncludes m "rate limit" = false →
        lookupUser store api now username = (.success c, store)) ∧
      (strIncludes m "Bad credentials" = true ∨ strIncludes m "401" = true →
        lookupUser store api now username =
          (.failure "GitHub API authentication failed. Please check GITHUB_TOKEN.", store)) ∧
      (strIncludes m "Bad credentials" = false → strIncludes m "401" = false →
        strIncludes m "rate limit" = true →
        lookupUser store api now username =
          (.failure "GitHub API rate limit exceeded. Please try again later.", store)) := by
  intro store api now username c m hm hcache hfresh herr
  have he : jsToLower (jsTrim username) ≠ "" := ghMatch_nonempty _ hm
  have hstep : lookupUser store api now username =
      lookupCatch store (jsToLower (jsTrim username)) m := by
    rw [lookupUser_not_fresh store api now username c he hm hcache hfresh]
    rcases herr with ⟨hp, hres⟩ | ⟨hp, hs⟩
    · exact lookupRefresh_probe_error store api now _ m
        (checkUserExists_rethrow api _ m hp hres)
    · exact lookupRefresh_fetch_error store api now _ m
        (checkUserExists_ok api _ hp) (fetchGitHubMetrics_error api _ m hs)
  refine ⟨fun h1 h2 h3 => ?_, fun h => ?_, fun h1 h2 h3 => ?_⟩
  · rw [hstep, lookupCatch_fallback store _ m h1 h2 h3, hcache]
  · rw [hstep, lookupCatch_auth store _ m h]
  · rw [hstep, lookupCatch_rate store _ m h1 h2 h3]

/-- An external API whose metrics fetch throws an auth error. -/
def authErrApi : GitHubApi :=
  { probe := fun _ => .ok (), statsQuery := fun _ => .error "Bad credentials"
    commitsQuery := fun _ => .error "x" }

/-- Counterexample to C1 as stated: a stale cached record for `alice`
exists, the metrics fetch throws an auth error, and `lookupUser` returns
the mapped auth error — not the cached record as a success. -/
theorem claim_C1_cex :
    getUserByUsername [aliceRecord] "alice" = some aliceRecord ∧
    isDataFresh aliceRecord (CACHE_DURATION_MS + 1) = false ∧
    lookupUser [aliceRecord] authErrApi (CACHE_DURATION_MS + 1) "alice" =
      (.failure "GitHub API authentication failed. Please check GITHUB_TOKEN.",
        [aliceRecord]) := by
  refine ⟨by decide, by decide, ?_⟩
  have h := (claim_C1_amended [aliceRecord] authErrApi (CACHE_DURATION_MS + 1)
    "alice" aliceRecord "Bad credentials"
    (by decide) (by decide) (by decide) (Or.inr ⟨rfl, rfl⟩)).2.1
  exact h (Or.inl (by decide))

/-- An external API whose metrics fetch throws a plain transport error. -/
def fetchBoomApi : GitHubApi :=
  { probe := fun _ => .ok (), statsQuery := fun _ => .error "boom"
    commitsQuery := fun _ => .error "x" }

/-- Witness for the amended C1: a transport error (no auth or rate-limit
marker) with a stale cached record yields the cached record as a success. -/
theorem claim_C1_witness :
    lookupUser [aliceRecord] fetchBoomApi (CACHE_DURATION_MS + 1) "alice" =
      (.success aliceRecord, [aliceRecord]) :=
  (claim_C1_amended [aliceRecord] fetchBoomApi (CACHE_DURATION_MS + 1)
    "alice" aliceRecord "boom"
    (by decide) (by decide) (by decide) (Or.inr ⟨rfl, rfl⟩)).1
    (by decide) (by decide) (by decide)

/-! ## Claim C6 — only the literal resolve signal means nonexistence -/

theorem lookupRefresh_notfound (store : List GitHubUser) (api : GitHubApi)
    (now : Int) (t : String)
    (h : (lookupRefresh store api now t).1 = .failure "GitHub user not found") :
    checkUserExists api t = .ok false := by
  unfold lookupRefresh at h
  split at h
  · rename_i msg heq
    exact absurd h (lookupCatch_ne_notfound store t msg)
  · rename_i heq
    exact heq
  · split at h
    · rename_i msg heq
      exact absurd h (lookupCatch_ne_notfound store t msg)
    · rename_i metrics heq
      simp at h

/-- Claim C6: `checkUserExists` reports nonexistence exactly when the probe
threw an error containing the literal "Could not resolve to a User"; any
other probe error is rethrown unchanged; and `lookupUser` reports the
user-not-found error only when `checkUserExists` returned nonexistence
(github.ts lines 412-438, user.ts lines 435-439). -/
theorem claim_C6_probe :
    (∀ (api : GitHubApi) (u : String),
      checkUserExists api u = .ok false ↔
        ∃ m, api.probe u = .error m ∧
          strIncludes m "Could not resolve to a User" = true) ∧
    (∀ (api : GitHubApi) (u m : String),
      api.probe u = .error m →
      strIncludes m "Could not resolve to a User" = false →
      checkUserExists api u = .error m) ∧
    (∀ (store : List GitHubUser) (api : GitHubApi) (now : Int) (username : String),
      (lookupUser store api now username).1 = .failure "GitHub user not found" →
      checkUserExists api (jsToLower (jsTrim username)) = .ok false) := by
  refine ⟨?_, ?_, ?_⟩
  · intro api u
    cases hp : api.probe u with
    | ok v =>
        have hch : checkUserExists api u = .ok true := by
          unfold checkUserExists
          rw [hp]
        rw [hch]
        constructor
        · intro h
          exact absurd h (by simp)
        · rintro ⟨m, hm, _⟩
          exact absurd hm (by simp)
    | error msg =>
        by_cases hres : strIncludes msg "Could not resolve to a User" = true
        · have hch : checkUserExists api u = .ok false := by
            unfold checkUserExists
            rw [hp]
            show (if strIncludes msg "Could not resolve to a User" = true then
              Except.ok false else Except.error msg) = Except.ok false
            rw [if_pos hres]
          rw [hch]
          exact ⟨fun _ => ⟨msg, rfl, hres⟩, fun _ => rfl⟩
        · have hres2 : strIncludes msg "Could not resolve to a User" = false := by
            cases hq : strIncludes msg "Could not resolve to a User" with
            | true => exact absurd hq hres
            | false => rfl
          rw [checkUserExists_rethrow api u msg hp hres2]
          constructor
          · intro h
            exact absurd h (by simp)
          · rintro ⟨m, hm, hmi⟩
            injection hm with hm2
            subst hm2
            exact absurd hmi hres
  · intro api u m hp hres
    exact checkUserExists_rethrow api u m hp hres
  · intro store api now username h
    by_cases he : jsToLower (jsTrim username) = ""
    · simp only [lookupUser, if_pos he] at h
      exact absurd h (by decide)
    · by_cases hm : ghMatch (jsToLower (jsTrim username)) = true
      · simp only [lookupUser, if_neg he, if_neg (by simp [hm] :
          ¬ ghMatch (jsToLower (jsTrim username)) = false)] at h
        split at h
        · split at h
          · simp at h
          · exact lookupRefresh_notfound store api now _ h
        · exact lookupRefresh_notfound store api now _ h
      · have hmf : ghMatch (jsToLower (jsTrim username)) = false := by
          cases hq : ghMatch (jsToLower (jsTrim username)) with
          | true => exact absurd hq hm
          | false => rfl
        simp only [lookupUser, if_neg he, if_pos hmf] at h
        exact absurd h (by decide)

/-- An external API whose probe throws GitHub's literal resolve error. -/
def resolveErrApi : GitHubApi :=
  { probe := fun _ => .error "Could not resolve to a User with the login of nouser."
    statsQuery := fun _ => .error "x", commitsQuery := fun _ => .error "x" }

/-- Witness for C6: the literal resolve error makes `checkUserExists`
report nonexistence. -/
theorem claim_C6_probe_witness :
    checkUserExists resolveErrApi "nouser" = .ok false :=
  (claim_C6_probe.1 resolveErrApi "nouser").mpr
    ⟨"Could not resolve to a User with the login of nouser.", rfl, by decide⟩

/-! ## Claim C10 — `getOrFetchUser` never surfaces an error -/

theorem getOrFetchUser_not_fresh (store : List GitHubUser) (api : GitHubApi)
    (now : Int) (username : String)
    (he : jsToLower (jsTrim username) ≠ "")
    (hm : ghMatch (jsToLower (jsTrim username)) = true)
    (hstale : ∀ c, getUserByUsername store (jsToLower (jsTrim username)) = some c →
      isDataFresh c now = false) :
    getOrFetchUser store api now username =
      getOrFetchRefresh (getUserByUsername store (jsToLower (jsTrim username)))
        store api now (jsToLower (jsTrim username)) := by
  simp only [getOrFetchUser, if_neg he, if_neg (by simp [hm] :
    ¬ ghMatch (jsToLower (jsTrim username)) = false)]
  split
  · rename_i c heq
    rw [if_neg (by simp [hstale c heq])]
    rw [heq]
  · rename_i heq
    rw [heq]

theorem getOrFetchRefresh_notfound (cached : Option GitHubUser)
    (store : List GitHubUser) (api : GitHubApi) (now : Int) (t : String)
    (h : checkUserExists api t = .ok false) :
    getOrFetchRefresh cached store api now t = (none, store) := by
  unfold getOrFetchRefresh
  split
  · rename_i msg heq
    rw [h] at heq
    exact absurd heq (by simp)
  · rfl
  · rename_i heq
    rw [h] at heq
    exact absurd heq (by simp)

theorem getOrFetchRefresh_error (cached : Option GitHubUser)
    (store : List GitHubUser) (api : GitHubApi) (now : Int) (t m : String)
    (h : checkUserExists api t = .error m) :
    getOrFetchRefresh cached store api now t = (cached, store) := by
  unfold getOrFetchRefresh
  split
  · rfl
  · rename_i heq
    rw [h] at heq
    exact absurd heq (by simp)
  · rename_i heq
    rw [h] at heq
    exact absurd heq (by simp)

theorem getOrFetchRefresh_fetch_error (cached : Option GitHubUser)
    (store : List GitHubUser) (api : GitHubApi) (now : Int) (t m : String)
    (hch : checkUserExists api t = .ok true)
    (hfm : fetchGitHubMetrics api t = .error m) :
    getOrFetchRefresh cached store api now t = (cached, store) := by
  unfold getOrFetchRefresh
  split
  · rfl
  · rename_i heq
    rw [hch] at heq
    exact absurd heq (by simp)
  · split
    · rfl
    · rename_i metrics heq
      rw [hfm] at heq
      exact absurd heq (by simp)

/-- Claim C10: `getOrFetchUser` never surfaces an error: blank or invalid
input yields `none` for every store and API (so no store or external
access can influence the result); a nonexistent GitHub user yields `none`;
and any error thrown by the existence check or the metrics fetch
(auth and rate-limit errors included — the catch has no special cases)
yields the previously looked-up cached record when one exists and `none`
otherwise (user.ts lines 363-411). -/
theorem claim_C10_getOrFetch :
    (∀ (store : List GitHubUser) (api : GitHubApi) (now : Int) (username : String),
      (jsToLower (jsTrim username) = "" ∨
        ghMatch (jsToLower (jsTrim username)) = false) →
      getOrFetchUser store api now username = (none, store)) ∧
    (∀ (store : List GitHubUser) (api : GitHubApi) (now : Int) (username : String),
      ghMatch (jsToLower (jsTrim username)) = true →
      (∀ c, getUserByUsername store (jsToLower (jsTrim username)) = some c →
        isDataFresh c now = false) →
      checkUserExists api (jsToLower (jsTrim username)) = .ok false →
      getOrFetchUser store api now username = (none, store)) ∧
    (∀ (store : List GitHubUser) (api : GitHubApi) (now : Int) (username m : String),
      ghMatch (jsToLower (jsTrim username)) = true →
      (∀ c, getUserByUsername store (jsToLower (jsTrim username)) = some c →
        isDataFresh c now = false) →
      ((api.probe (jsToLower (jsTrim username)) = .error m ∧
          strIncludes m "Could not resolve to a User" = false) ∨
        (api.probe (jsToLower (jsTrim username)) = .ok () ∧
          api.statsQuery (jsToLower (jsTrim username)) = .error m)) →
      getOrFetchUser store api now username =
        (getUserByUsername store (jsToLower (jsTrim username)), store)) := by
  refine ⟨?_, ?_, ?_⟩
  · intro store api now username h
    rcases h with he | hmf
    · simp only [getOrFetchUser, if_pos he]
    · by_cases he : jsToLower (jsTrim username) = ""
      · simp only [getOrFetchUser, if_pos he]
      · simp only [getOrFetchUser, if_neg he, if_pos hmf]
  · intro store api now username hm hstale hnx
    have he : jsToLower (jsTrim username) ≠ "" := ghMatch_nonempty _ hm
    rw [getOrFetchUser_not_fresh store api now username he hm hstale]
    exact getOrFetchRefresh_notfound _ store api now _ hnx
  · intro store api now username m hm hstale herr
    have he : jsToLower (jsTrim username) ≠ "" := ghMatch_nonempty _ hm
    rw [getOrFetchUser_not_fresh store api now username he hm hstale]
    rcases herr with ⟨hp, hres⟩ | ⟨hp, hs⟩
    · exact getOrFetchRefresh_error _ store api now _ m
        (checkUserExists_rethrow api _ m hp hres)
    · exact getOrFetchRefresh_fetch_error _ store api now _ m
        (checkUserExists_ok api _ hp) (fetchGitHubMetrics_error api _ m hs)

/-- Witness for C10: a transport error during the metrics fetch with a
stale cached record present yields that cached record, not an error. -/
theorem claim_C10_getOrFetch_witness :
    getOrFetchUser [aliceRecord] fetchBoomApi (CACHE_DURATION_MS + 1) "alice" =
      (getUserByUsername [aliceRecord] (jsToLower (jsTrim "alice")), [aliceRecord]) :=
  claim_C10_getOrFetch.2.2 [aliceRecord] fetchBoomApi (CACHE_DURATION_MS + 1)
    "alice" "boom" (by decide)
    (fun c hc => by
      have h0 : getUserByUsername [aliceRecord] (jsToLower (jsTrim "alice")) =
          some aliceRecord := by decide
      rw [h0] at hc
      injection hc with h1
      subst h1
      decide)
    (Or.inr ⟨rfl, rfl⟩)

end Retro
